import Mathlib

/-!
Shallow embedding of the catalog add-on in `src/index.js`: the cache
lifecycle (load, refresh, merge, save), the remote-fetch pagination loop,
and the two read handlers (catalog search and metadata lookup).  Outbound
network calls are modelled as oracle functions passed in as parameters;
the mutable module-level caches (`catalogCache`, `metaCache`) are modelled
as explicit state values, and the `await` suspension points of a refresh
run are modelled as a list of observable intermediate states.
-/

/-- One element of a TMDB `/discover/movie` result list, restricted to the
fields the program reads (`id`, `title`, `release_date`, `poster_path`,
`overview`).  Fields that may be absent or `null` in the JSON are
`Option`s. -/
structure Movie where
  id : Nat
  title : Option String
  release_date : Option String
  poster_path : Option String
  overview : Option String
  deriving Repr, DecidableEq

/-- The part of a `/discover/movie` response the loop in
`fetchMoviesForCombination` destructures: `results` and `total_pages`. -/
structure PageResult where
  results : List Movie
  total_pages : Nat
  deriving Repr, DecidableEq

/-- Number of days in a month, with the Gregorian leap-year rule; used to
validate a `YYYY-MM-DD` date the way `new Date(...)` rejects out-of-range
components. -/
def daysInMonth (y m : Nat) : Nat :=
  if m = 2 then
    if y % 4 = 0 ∧ (y % 100 ≠ 0 ∨ y % 400 = 0) then 29 else 28
  else if m = 4 ∨ m = 6 ∨ m = 9 ∨ m = 11 then 30
  else 31

/-- Tests whether `needle` occurs at the start of the second list; structural helper for
the substring test. -/
def listStartsWith : List Char → List Char → Bool
  | [], _ => true
  | _ :: _, [] => false
  | a :: as, b :: bs => a == b && listStartsWith as bs

/-- Tests whether `needle` occurs somewhere in the second list; structural model of
JS `String.prototype.includes` on the underlying characters. -/
def listContainsSub (needle : List Char) : List Char → Bool
  | [] => needle.isEmpty
  | c :: rest => listStartsWith needle (c :: rest) || listContainsSub needle rest

/-- Split a character list on a separator; the result always has one more
piece than there are separators, like JS `split`. -/
def splitCharList (sep : Char) : List Char → List (List Char)
  | [] => [[]]
  | c :: rest =>
    match splitCharList sep rest with
    | [] => [[]]
    | h :: t => if c = sep then [] :: h :: t else (c :: h) :: t

/-- JS `s.split(sep)` for a one-character separator. -/
def jsSplit (s : String) (sep : Char) : List String :=
  (splitCharList sep s.data).map (fun l => String.mk l)

/-- The numeric value of a decimal digit character. -/
def charDigit (c : Char) : Option Nat :=
  if '0' ≤ c ∧ c ≤ '9' then some (c.toNat - '0'.toNat) else none

/-- Accumulate the value of a digit string; `none` on a non-digit. -/
def digitsVal : List Char → Nat → Option Nat
  | [], acc => some acc
  | c :: rest, acc =>
    match charDigit c with
    | some d => digitsVal rest (acc * 10 + d)
    | none => none

/-- Parse a non-empty all-digit string as a natural number, the way a
numeric JS string coerces; `none` otherwise. -/
def jsToNat (s : String) : Option Nat :=
  match s.data with
  | [] => none
  | l => digitsVal l 0

/-- Models `new Date(s)` applied to the API's `YYYY-MM-DD` release dates:
`none` when the string does not parse to a valid calendar date
(`isNaN(new Date(s))`), otherwise a key `y*10000 + m*100 + d` that is
order-isomorphic to the calendar date. -/
def parseDate (s : String) : Option Nat :=
  match jsSplit s '-' with
  | [ys, ms, ds] =>
    match jsToNat ys, jsToNat ms, jsToNat ds with
    | some y, some m, some d =>
      if 1 ≤ m ∧ m ≤ 12 ∧ 1 ≤ d ∧ d ≤ daysInMonth y m then
        some (y * 10000 + m * 100 + d)
      else none
    | _, _, _ => none
  | _ => none

/-- The date value of an entry: `none` when `release_date` is missing or
unparsable (in JS a missing or empty `release_date` is falsy, and an empty
or malformed string yields `isNaN(new Date(...))`). -/
def entryDate (m : Movie) : Option Nat :=
  m.release_date.bind parseDate

/-- The filter of line 122: `movie.release_date && !isNaN(new Date(movie.release_date))`. -/
def isValidEntry (m : Movie) : Bool :=
  (entryDate m).isSome

/-- Sort key used by the comparator on line 143; entries reaching the sort
have passed `isValidEntry`, so the default is never relevant there. -/
def dateKey (m : Movie) : Nat :=
  (entryDate m).getD 0

/-- The pagination loop of `fetchMoviesForCombination` (lines 112-126):
starting at `page`, fetch a page from the API oracle, append its
valid-date entries to `acc`, and continue while
`page+1 ≤ cap ∧ page+1 ≤ total_pages` (the `do..while` condition with
`NUM_PAGES = cap` and `totalPages` taken from the latest response).
`api p = none` models a thrown request error at page `p`; the loop then
propagates the error (`none`), losing the accumulator, because the
`try` block wraps the whole loop. -/
def fetchLoop (api : Nat → Option PageResult) (cap : Nat) (page : Nat)
    (acc : List Movie) : Option (List Movie) :=
  match api page with
  | none => none
  | some pr =>
    let acc2 := acc ++ pr.results.filter isValidEntry
    if h : page + 1 ≤ cap ∧ page + 1 ≤ pr.total_pages then
      fetchLoop api cap (page + 1) acc2
    else
      some acc2
termination_by cap + 1 - page
decreasing_by omega

/-- Function `fetchMoviesForCombination` (lines 106-133): run the pagination loop
from page 1; the surrounding `catch` returns the empty list on any page
error, discarding entries gathered from earlier successful pages. -/
def fetchMoviesForCombination (api : Nat → Option PageResult) (cap : Nat) :
    List Movie :=
  match fetchLoop api cap 1 [] with
  | none => []
  | some l => l

/-- The fixed `GENRE_COMBINATIONS` list (lines 38-44). -/
def GENRE_COMBINATIONS : List String :=
  ["28,12", "28,35", "28,14", "14,12", "14,35"]

/-- Descending release-date order as the JS comparator
`(a, b) => new Date(b.release_date) - new Date(a.release_date)` induces:
`a` may precede `b` exactly when the comparator is `≤ 0`. -/
def dateDescLE (a b : Movie) : Bool :=
  dateKey b ≤ dateKey a

/-- Function `fetchMovies` (lines 135-146): concatenate the per-combination results
in list order, then sort by release date descending with the stable
`Array.prototype.sort`. -/
def fetchMovies (api : String → Nat → Option PageResult) (cap : Nat) :
    List Movie :=
  let allResults :=
    GENRE_COMBINATIONS.foldl
      (fun acc c => acc ++ fetchMoviesForCombination (api c) cap) []
  allResults.mergeSort dateDescLE

/-- JS truthiness of an optional string field: `undefined`/`null` and the
empty string are falsy. -/
def strTruthy : Option String → Bool
  | some s => s ≠ ""
  | none => false

/-- JS `o || dflt` on an optional string field. -/
def jsOr (o : Option String) (dflt : String) : String :=
  match o with
  | some s => if s = "" then dflt else s
  | none => dflt

/-- The body a TMDB `/movie/{id}` lookup stores in the meta cache,
restricted to the fields `defineMetaHandler` destructures, plus the
`error` field that `fetchMovieMetadata` writes on failure
(`{ error: 'Failed to fetch movie data' }`).  `vote_average` is modelled
in tenths (JS number with one decimal of interest), `genres` as the list
of genre names. -/
structure MovieData where
  error : Option String
  title : Option String
  overview : Option String
  poster_path : Option String
  release_date : Option String
  genres : Option (List String)
  runtime : Option Nat
  vote_average : Option Nat
  backdrop_path : Option String
  deriving Repr, DecidableEq

/-- A successful `/movie/{id}` body, i.e. one without the failure marker. -/
def mkMovieData (title overview poster_path release_date : Option String)
    (genres : Option (List String)) (runtime vote_average : Option Nat)
    (backdrop_path : Option String) : MovieData :=
  ⟨none, title, overview, poster_path, release_date, genres, runtime,
    vote_average, backdrop_path⟩

/-- The failure marker `fetchMovieMetadata` returns when the lookup throws
(line 155). -/
def failedMovieData : MovieData :=
  { error := some "Failed to fetch movie data", title := none,
    overview := none, poster_path := none, release_date := none,
    genres := none, runtime := none, vote_average := none,
    backdrop_path := none }

/-- One value of the `metaCache` object: `{ timestamp, data }` (lines
172-175). -/
structure MetaEntry where
  timestamp : Nat
  data : MovieData
  deriving Repr, DecidableEq

/-- The `catalogCache` object once populated: `{ timestamp, data }`
(lines 163-166). -/
structure CatalogCache where
  timestamp : Nat
  data : List Movie
  deriving Repr, DecidableEq

/-- The two module-level caches.  `catalog = none` models the initial `{}`
(no `timestamp`/`data` fields); the meta cache is the object's key/value
pairs, keyed by the numeric movie id. -/
structure CacheState where
  catalog : Option CatalogCache
  meta : List (Nat × MetaEntry)
  deriving Repr, DecidableEq

/-- The state of both caches at process start: two empty objects. -/
def initialCacheState : CacheState :=
  ⟨none, []⟩

/-- JS object write `metaCache[id] = e`: replace the value in place if the
key exists, otherwise add the pair. -/
def setMeta : List (Nat × MetaEntry) → Nat → MetaEntry →
    List (Nat × MetaEntry)
  | [], id, e => [(id, e)]
  | (k, v) :: rest, id, e =>
    if k = id then (k, e) :: rest else (k, v) :: setMeta rest id e

/-- JS object read `metaCache[id]`: `none` models `undefined`. -/
def lookupMeta : List (Nat × MetaEntry) → Nat → Option MetaEntry
  | [], _ => none
  | (k, v) :: rest, id => if k = id then some v else lookupMeta rest id

/-- The metadata loop of `updateCatalogAndMetaCache` (lines 168-176) run
over `movies`: for each movie in order, fetch its metadata through the
oracle `metaOf` and write `{ timestamp: now, data }` into the table.  The
pre-existing table is mutated in place, never cleared. -/
def mergeMetaRun (metaOf : Nat → MovieData) (now : Nat)
    (table : List (Nat × MetaEntry)) (movies : List Movie) :
    List (Nat × MetaEntry) :=
  movies.foldl (fun t m => setMeta t m.id ⟨now, metaOf m.id⟩) table

/-- The cache state after a refresh run completes (lines 159-179): the new
catalog object `{ timestamp: now, data: results }` and the meta table with
every fetched record merged in. -/
def refreshPost (pre : CacheState) (results : List Movie)
    (metaOf : Nat → MovieData) (now : Nat) : CacheState :=
  ⟨some ⟨now, results⟩, mergeMetaRun metaOf now pre.meta results⟩

/-- The cache states observable by a concurrent reader at the `await`
suspension points of `updateCatalogAndMetaCache`: the pre state (during
`fetchMovies`), then — after the synchronous `catalogCache = ...`
assignment on line 163 — one state per metadata `await` (line 171) in
which the first `i` fetched records have been merged, and finally the
fully merged state (observable during `saveCache` and afterwards). -/
def refreshStates (pre : CacheState) (results : List Movie)
    (metaOf : Nat → MovieData) (now : Nat) : List CacheState :=
  pre :: (List.range (results.length + 1)).map
    (fun i => ⟨some ⟨now, results⟩,
      mergeMetaRun metaOf now pre.meta (results.take i)⟩)

/-- Function `loadCache` (lines 78-94): each file is read and parsed in its own
`try`; a missing or corrupt file (`none`) leaves that cache as it was,
never raising.  The two arguments are the parse results of the catalog
file and the meta file. -/
def loadCache (catalogFile : Option CatalogCache)
    (metaFile : Option (List (Nat × MetaEntry))) (st : CacheState) :
    CacheState :=
  let st1 := match catalogFile with
    | some c => { st with catalog := some c }
    | none => st
  match metaFile with
  | some m => { st1 with meta := m }
  | none => st1

/-- The startup staleness test of line 269:
`!catalogCache.timestamp || Date.now() - catalogCache.timestamp > 24*60*60*1000`.
A missing catalog object or a zero timestamp is falsy; JS negative
differences compare below the threshold exactly as truncated `Nat`
subtraction does. -/
def needsInitialRefresh (catalog : Option CatalogCache) (now : Nat) : Bool :=
  match catalog with
  | none => true
  | some c => c.timestamp = 0 || decide (now - c.timestamp > 24 * 60 * 60 * 1000)

/-- JS `t.toLowerCase().includes(q.toLowerCase())`: case-insensitive
substring containment. -/
def jsIncludes (t q : String) : Bool :=
  listContainsSub (q.data.map Char.toLower) (t.data.map Char.toLower)

/-- JS `path ? base + path : null` for the poster/backdrop URL fields. -/
def jsPathUrl (base : String) (o : Option String) : Option String :=
  match o with
  | some p => if p = "" then none else some (base ++ p)
  | none => none

/-- JS `d ? d.split('-')[0] : 'Unknown'` for the `releaseInfo` fields. -/
def jsReleaseYear (o : Option String) : String :=
  match o with
  | some s => if s = "" then "Unknown" else (jsSplit s '-').headD ""
  | none => "Unknown"

/-- The summary object built per catalog item on lines 199-206. -/
structure CatalogMeta where
  id : String
  type : String
  name : Option String
  poster : Option String
  description : String
  releaseInfo : String
  deriving Repr, DecidableEq

/-- Lines 199-206: map one cached item to its summary view.  `name` takes
`item.title` verbatim (possibly `undefined`); no method is called on it
here, so a missing title does not throw on this path. -/
def buildCatalogMeta (item : Movie) : CatalogMeta :=
  { id := "tmdb-" ++ toString item.id
  , type := "movie"
  , name := item.title
  , poster := jsPathUrl "https://image.tmdb.org/t/p/w500" item.poster_path
  , description := jsOr item.overview "No description available"
  , releaseInfo := jsReleaseYear item.release_date }

/-- The filter of lines 193-195:
`results.filter(movie => movie.title.toLowerCase().includes(q.toLowerCase()))`.
`movie.title.toLowerCase()` on a missing title throws a `TypeError`, which
the handler does not catch; the thrown case is `Except.error ()`. -/
def filterByTitle : List Movie → String → Except Unit (List Movie)
  | [], _ => .ok []
  | m :: rest, q =>
    match m.title with
    | none => .error ()
    | some t =>
      (filterByTitle rest q).map (fun r => if jsIncludes t q then m :: r else r)

/-- Handler `defineCatalogHandler` (lines 185-210): read `catalogCache.data || []`,
filter by title when the search query is truthy (non-empty), and map the
survivors to summary views.  `search = none` models a request without the
`search` extra. -/
def catalogHandler (catalog : Option CatalogCache) (search : Option String) :
    Except Unit (List CatalogMeta) :=
  let searchQuery := match search with
    | some s => s
    | none => ""
  let results := match catalog with
    | some c => c.data
    | none => []
  let filtered := if searchQuery ≠ "" then filterByTitle results searchQuery
    else .ok results
  filtered.map (List.map buildCatalogMeta)

/-- JS truthiness of an optional numeric field: `undefined`, `null` and
`0` are falsy. -/
def natTruthy : Option Nat → Bool
  | some n => n ≠ 0
  | none => false

/-- JS `vote_average.toFixed(1)` on a number modelled in tenths. -/
def formatTenths (v : Nat) : String :=
  toString (v / 10) ++ "." ++ toString (v % 10)

/-- The detail object built on lines 240-253. -/
structure MetaView where
  id : String
  type : String
  name : String
  poster : Option String
  background : Option String
  description : String
  releaseInfo : String
  genre : List String
  runtime : String
  rating : String
  deriving Repr, DecidableEq

/-- Lines 240-253: project a successful metadata record into the display
view, substituting defaults for falsy fields. -/
def buildMetaView (fullId : String) (d : MovieData) : MetaView :=
  { id := fullId
  , type := "movie"
  , name := jsOr d.title "Unknown Title"
  , poster := jsPathUrl "https://image.tmdb.org/t/p/w500" d.poster_path
  , background := jsPathUrl "https://image.tmdb.org/t/p/w1280" d.backdrop_path
  , description := jsOr d.overview "No description available"
  , releaseInfo := jsReleaseYear d.release_date
  , genre := match d.genres with
    | some l => l
    | none => []
  , runtime := match d.runtime with
    | some r => if r = 0 then "Unknown" else toString r ++ " min"
    | none => "Unknown"
  , rating := match d.vote_average with
    | some v => if v = 0 then "N/A" else formatTenths v
    | none => "N/A" }

/-- Line 213, `args.id.split('-')[1]`, then the numeric-key lookup: the
meta cache's keys are the numeric movie ids, so a suffix that is not a
numeral can never match a key (`metaCache[suffix]` is `undefined`). -/
def parseMetaId (fullId : String) : Option Nat :=
  ((jsSplit fullId '-')[1]?).bind jsToNat

/-- Handler `defineMetaHandler` (lines 212-254): split the external id, look the
suffix up in the meta cache, answer `{ meta: null }` (`none`) when the
entry is missing or carries the failure marker, else project the record. -/
def metaHandler (table : List (Nat × MetaEntry)) (fullId : String) :
    Option MetaView :=
  match parseMetaId fullId with
  | none => none
  | some id =>
    match lookupMeta table id with
    | none => none
    | some e =>
      if strTruthy e.data.error then none
      else some (buildMetaView fullId e.data)

/-- Events of the scheduler model: a cron `trigger` firing (line 266) and
a pipeline run reaching its end (`complete`). -/
inductive SchedEvent where
  | trigger
  | complete
  deriving Repr, DecidableEq

/-- Lines 260-266: `schedule.scheduleJob('0 0 * * *', refreshCache)` with
`refreshCache` unconditionally awaiting `updateCatalogAndMetaCache` — no
in-flight flag is consulted, so every trigger immediately starts one more
run; a completion ends one. -/
def schedStep (inFlight : Nat) : SchedEvent → Nat
  | .trigger => inFlight + 1
  | .complete => inFlight - 1

/-- Number of pipeline runs in flight after a sequence of scheduler
events, starting from the idle state. -/
def inFlightAfter (evs : List SchedEvent) : Nat :=
  evs.foldl schedStep 0

/-- Derived predicate used to state the search filter's effect: the entry
has a title containing the query case-insensitively. -/
def titleMatches (q : String) (m : Movie) : Bool :=
  match m.title with
  | some t => jsIncludes t q
  | none => false

/-- The concatenation of the per-combination fetch results, in
combination order, before sorting. -/
def concatCombinations (api : String → Nat → Option PageResult)
    (cap : Nat) : List Movie :=
  (GENRE_COMBINATIONS.map (fun c => fetchMoviesForCombination (api c) cap)).flatten

/-- Fixture: a discovered movie with a title and a valid date. -/
def movieIron : Movie := ⟨2, some "Iron Man", some "2020-05-01", none, none⟩

/-- Fixture: a second movie with the same release date as `movieIron`. -/
def movieMad : Movie := ⟨3, some "Mad Max", some "2020-05-01", none, none⟩

/-- Fixture: a cached entry whose `title` field is absent. -/
def movieNoTitle : Movie := ⟨4, none, some "2019-01-01", none, none⟩

/-- Fixture: an API oracle whose page 1 succeeds (advertising three total
pages) and whose page 2 request throws. -/
def failingPageApi : Nat → Option PageResult :=
  fun p => if p = 1 then some ⟨[movieIron], 3⟩ else none

/-- Fixture: one movie on page `p`. -/
def pageMovie (p : Nat) : Movie := ⟨p, some "Page", some "2020-01-01", none, none⟩

/-- Fixture: the result list of page `p` for the steady oracle. -/
def pagedList (p : Nat) : List Movie := [pageMovie p]

/-- Fixture: an API oracle that always succeeds, three total pages. -/
def steadyApi : Nat → Option PageResult :=
  fun p => some ⟨pagedList p, 3⟩

/-- Fixture: a per-combination oracle where one combination returns two
same-date movies on its single page and the others return none. -/
def stableApi : String → Nat → Option PageResult :=
  fun c _ => if c = "28,12" then some ⟨[movieMad, movieIron], 1⟩ else some ⟨[], 1⟩

/-- Fixture: a successful metadata record. -/
def sampleMeta : MovieData :=
  mkMovieData (some "Iron Man") none none (some "2008-05-02")
    (some ["Action"]) (some 126) (some 79) none

/-- Fixture: a metadata-fetch oracle. -/
def metaOracle : Nat → MovieData := fun _ => sampleMeta

/-- Fixture: a metadata-table entry present before a refresh. -/
def preMetaEntry : MetaEntry := ⟨3, failedMovieData⟩

/-- Fixture: the cache state before a refresh run: an old catalog holding
`movieMad` and a metadata record for id 1. -/
def preState : CacheState := ⟨some ⟨5, [movieMad]⟩, [(1, preMetaEntry)]⟩

/-- Fixture: the state a reader observes during the first metadata fetch
of a refresh of `preState` with results `[movieIron]` at time 10: the new
catalog is already in place while the metadata table is still the old
one. -/
def midState : CacheState := ⟨some ⟨10, [movieIron]⟩, [(1, preMetaEntry)]⟩

theorem lookupMeta_setMeta (t : List (Nat × MetaEntry)) (k id : Nat)
    (e : MetaEntry) :
    lookupMeta (setMeta t k e) id =
      if k = id then some e else lookupMeta t id := by
  induction t with
  | nil =>
    simp only [setMeta, lookupMeta]
  | cons p rest ih =>
    obtain ⟨k2, v⟩ := p
    by_cases h : k2 = k
    · subst h
      simp only [setMeta, if_pos rfl, lookupMeta]
      by_cases h2 : k2 = id <;> simp [h2]
    · simp only [setMeta, if_neg h, lookupMeta]
      by_cases h2 : k2 = id
      · subst h2
        simp [Ne.symm h]
      · simp [h2, ih]

theorem mergeMetaRun_cons (metaOf : Nat → MovieData) (now : Nat)
    (t : List (Nat × MetaEntry)) (m : Movie) (ms : List Movie) :
    mergeMetaRun metaOf now t (m :: ms) =
      mergeMetaRun metaOf now (setMeta t m.id ⟨now, metaOf m.id⟩) ms := rfl

theorem mergeMetaRun_lookup_not_mem (metaOf : Nat → MovieData) (now : Nat) :
    ∀ (ms : List Movie) (t : List (Nat × MetaEntry)) (id : Nat),
      id ∉ ms.map (fun m => m.id) →
      lookupMeta (mergeMetaRun metaOf now t ms) id = lookupMeta t id := by
  intro ms
  induction ms with
  | nil => intro t id _; rfl
  | cons m ms ih =>
    intro t id h
    rw [List.map_cons, List.mem_cons] at h
    push_neg at h
    rw [mergeMetaRun_cons, ih _ _ h.2, lookupMeta_setMeta,
      if_neg (Ne.symm h.1)]

theorem mergeMetaRun_lookup_mem (metaOf : Nat → MovieData) (now : Nat) :
    ∀ (ms : List Movie) (t : List (Nat × MetaEntry)) (id : Nat),
      id ∈ ms.map (fun m => m.id) →
      lookupMeta (mergeMetaRun metaOf now t ms) id = some ⟨now, metaOf id⟩ := by
  intro ms
  induction ms with
  | nil => intro t id h; simp at h
  | cons m ms ih =>
    intro t id h
    rw [mergeMetaRun_cons]
    by_cases htail : id ∈ ms.map (fun m => m.id)
    · exact ih _ _ htail
    · rw [List.map_cons, List.mem_cons] at h
      rcases h with h | h
      · subst h
        rw [mergeMetaRun_lookup_not_mem _ _ _ _ _ htail, lookupMeta_setMeta,
          if_pos rfl]
      · exact absurd h htail

theorem mergeMetaRun_lookup_or (metaOf : Nat → MovieData) (now : Nat) :
    ∀ (ms : List Movie) (t : List (Nat × MetaEntry)) (id : Nat),
      lookupMeta (mergeMetaRun metaOf now t ms) id = lookupMeta t id ∨
      lookupMeta (mergeMetaRun metaOf now t ms) id = some ⟨now, metaOf id⟩ := by
  intro ms
  induction ms with
  | nil => intro t id; exact Or.inl rfl
  | cons m ms ih =>
    intro t id
    rw [mergeMetaRun_cons]
    rcases ih (setMeta t m.id ⟨now, metaOf m.id⟩) id with h | h
    · rw [lookupMeta_setMeta] at h
      by_cases he : m.id = id
      · subst he
        rw [if_pos rfl] at h
        exact Or.inr h
      · rw [if_neg he] at h
        exact Or.inl h
    · exact Or.inr h

theorem filterByTitle_ok : ∀ (l : List Movie) (q : String),
    (∀ m ∈ l, (m.title).isSome = true) →
    filterByTitle l q = .ok (l.filter (titleMatches q)) := by
  intro l q
  induction l with
  | nil => intro _; rfl
  | cons m rest ih =>
    intro h
    have hm := h m (List.mem_cons_self m rest)
    obtain ⟨t, ht⟩ := Option.isSome_iff_exists.mp hm
    have hrest := ih fun x hx => h x (List.mem_cons_of_mem m hx)
    simp only [filterByTitle, ht, hrest, Except.map, List.filter_cons,
      titleMatches]

theorem filterByTitle_error : ∀ (l : List Movie) (q : String),
    (∃ m ∈ l, m.title = none) →
    filterByTitle l q = .error () := by
  intro l q
  induction l with
  | nil => intro h; simp at h
  | cons m rest ih =>
    intro h
    match hm : m.title with
    | none => simp [filterByTitle, hm]
    | some t =>
      have : ∃ x ∈ rest, x.title = none := by
        rcases h with ⟨x, hx, hxt⟩
        rcases List.mem_cons.mp hx with rfl | hx2
        · rw [hm] at hxt; cases hxt
        · exact ⟨x, hx2, hxt⟩
      simp [filterByTitle, hm, ih this, Except.map]

theorem foldl_append_eq_flatten {α β : Type} (f : α → List β) :
    ∀ (l : List α) (a : List β),
      l.foldl (fun acc c => acc ++ f c) a = a ++ (l.map f).flatten := by
  intro l
  induction l with
  | nil => intro a; simp
  | cons c l ih =>
    intro a
    simp [List.foldl_cons, ih, List.append_assoc]

theorem fetchLoop_valid (api : Nat → Option PageResult) (cap : Nat) :
    ∀ (page : Nat) (acc : List Movie),
      (∀ m ∈ acc, isValidEntry m = true) →
      ∀ l, fetchLoop api cap page acc = some l →
      ∀ m ∈ l, isValidEntry m = true := by
  intro page acc
  induction page, acc using fetchLoop.induct api cap with
  | case1 page acc hnone =>
    intro _ l hl
    rw [fetchLoop.eq_def, hnone] at hl
    cases hl
  | case2 page acc pr hsome acc2 hcond ih =>
    intro hacc l hl
    rw [fetchLoop.eq_def, hsome] at hl
    simp only [dif_pos hcond] at hl
    refine ih ?_ l hl
    intro m hm
    rcases List.mem_append.mp hm with h | h
    · exact hacc m h
    · exact (List.mem_filter.mp h).2
  | case3 page acc pr hsome hcond =>
    intro hacc l hl
    rw [fetchLoop.eq_def, hsome] at hl
    simp only [dif_neg hcond, Option.some.injEq] at hl
    subst hl
    intro m hm
    rcases List.mem_append.mp hm with h | h
    · exact hacc m h
    · exact (List.mem_filter.mp h).2

theorem fetchLoop_run (api : Nat → Option PageResult) (R : Nat → List Movie)
    (T cap : Nat)
    (hapi : ∀ p, 1 ≤ p → p ≤ min cap T → api p = some ⟨R p, T⟩) :
    ∀ (n page : Nat) (acc : List Movie), 1 ≤ page → page + n = min cap T →
      fetchLoop api cap page acc =
        some (acc ++ ((List.range' page (n + 1)).map
          (fun p => (R p).filter isValidEntry)).flatten) := by
  intro n
  induction n with
  | zero =>
    intro page acc h1 hk
    rw [fetchLoop.eq_def, hapi page h1 (by omega)]
    have hstop : ¬ (page + 1 ≤ cap ∧ page + 1 ≤ T) := by omega
    simp only [hstop, dite_false]
    simp [List.range']
  | succ n ih =>
    intro page acc h1 hk
    rw [fetchLoop.eq_def, hapi page h1 (by omega)]
    have hcont : page + 1 ≤ cap ∧ page + 1 ≤ T := by omega
    simp only [hcont, dite_true]
    rw [ih (page + 1) _ (by omega) (by omega)]
    simp [List.range'_succ, List.append_assoc]

theorem inFlightAfter_concat (evs : List SchedEvent) (e : SchedEvent) :
    inFlightAfter (evs ++ [e]) = schedStep (inFlightAfter evs) e := by
  simp [inFlightAfter, List.foldl_append]

theorem foldl_schedStep_replicate :
    ∀ (n k : Nat),
      (List.replicate n SchedEvent.trigger).foldl schedStep k = k + n := by
  intro n
  induction n with
  | zero => intro k; simp [List.replicate]
  | succ n ih =>
    intro k
    rw [List.replicate_succ, List.foldl_cons, ih]
    simp [schedStep]
    omega

theorem fetchMovies_eq (api : String → Nat → Option PageResult) (cap : Nat) :
    fetchMovies api cap = (concatCombinations api cap).mergeSort dateDescLE := by
  simp only [fetchMovies, concatCombinations, foldl_append_eq_flatten,
    List.nil_append]

theorem dateDescLE_trans : ∀ a b c : Movie,
    dateDescLE a b = true → dateDescLE b c = true → dateDescLE a c = true := by
  intro a b c h1 h2
  simp only [dateDescLE, decide_eq_true_eq] at h1 h2 ⊢
  omega

theorem dateDescLE_total : ∀ a b : Movie,
    (dateDescLE a b || dateDescLE b a) = true := by
  intro a b
  simp only [dateDescLE, Bool.or_eq_true, decide_eq_true_eq]
  omega

/-- C7: if durable storage is missing or corrupt at startup, `loadCache`
leaves both structures empty without failing, and the loaded snapshot
then trips the startup staleness test, so one immediate refresh run is
triggered. -/
theorem loadCache_bootstrap :
    loadCache none none initialCacheState = initialCacheState ∧
    initialCacheState.catalog = none ∧ initialCacheState.meta = [] ∧
    ∀ now, needsInitialRefresh (loadCache none none initialCacheState).catalog now = true := by
  exact ⟨rfl, rfl, rfl, fun _ => rfl⟩

/-- C6: `getMetadata` returns `none` when the id does not parse, when the
id is missing from the metadata table, and when the stored record carries
the failure marker — the last two produce the same `none` as an id never
fetched — and projects the stored record into the display view when the
record is a successful fetch. -/
theorem getMetadata_spec (table : List (Nat × MetaEntry)) (fullId : String)
    (id : Nat) (e : MetaEntry) :
    (parseMetaId fullId = none → metaHandler table fullId = none) ∧
    (parseMetaId fullId = some id → lookupMeta table id = none →
      metaHandler table fullId = none) ∧
    (parseMetaId fullId = some id → lookupMeta table id = some e →
      strTruthy e.data.error = true → metaHandler table fullId = none) ∧
    (parseMetaId fullId = some id → lookupMeta table id = some e →
      strTruthy e.data.error = false →
      metaHandler table fullId = some (buildMetaView fullId e.data)) := by
  refine ⟨?_, ?_, ?_, ?_⟩
  · intro h1
    simp [metaHandler, h1]
  · intro h1 h2
    simp [metaHandler, h1, h2]
  · intro h1 h2 h3
    simp [metaHandler, h1, h2, h3]
  · intro h1 h2 h3
    simp [metaHandler, h1, h2, h3]

theorem getMetadata_spec_witness :
    metaHandler [(2, ⟨7, failedMovieData⟩)] "tmdb-2" = none ∧
    metaHandler [(2, ⟨7, sampleMeta⟩)] "tmdb-2" =
      some (buildMetaView "tmdb-2" sampleMeta) :=
  ⟨(getMetadata_spec [(2, ⟨7, failedMovieData⟩)] "tmdb-2" 2
      ⟨7, failedMovieData⟩).2.2.1 (by decide) rfl (by decide),
   (getMetadata_spec [(2, ⟨7, sampleMeta⟩)] "tmdb-2" 2
      ⟨7, sampleMeta⟩).2.2.2 (by decide) rfl (by decide)⟩

/-- C8: a refresh merges into the existing metadata table — an id absent
from the new snapshot keeps its previous record unchanged, while every id
of the new snapshot ends up with the freshly fetched record. -/
theorem refresh_merges_meta (pre : CacheState) (results : List Movie)
    (metaOf : Nat → MovieData) (now : Nat) (id : Nat) :
    (id ∉ results.map (fun m => m.id) →
      lookupMeta (refreshPost pre results metaOf now).meta id =
        lookupMeta pre.meta id) ∧
    (id ∈ results.map (fun m => m.id) →
      lookupMeta (refreshPost pre results metaOf now).meta id =
        some ⟨now, metaOf id⟩) := by
  constructor
  · intro h
    exact mergeMetaRun_lookup_not_mem metaOf now results pre.meta id h
  · intro h
    exact mergeMetaRun_lookup_mem metaOf now results pre.meta id h

theorem refresh_merges_meta_witness :
    lookupMeta (refreshPost preState [movieIron] metaOracle 10).meta 1 =
      lookupMeta preState.meta 1 ∧
    lookupMeta (refreshPost preState [movieIron] metaOracle 10).meta 2 =
      some ⟨10, metaOracle 2⟩ :=
  ⟨(refresh_merges_meta preState [movieIron] metaOracle 10 1).1 (by decide),
   (refresh_merges_meta preState [movieIron] metaOracle 10 2).2 (by decide)⟩

/-- C9: with an error-free API reporting a constant page count `T ≥ 1`
and a page cap `cap ≥ 1`, the pagination loop fetches exactly pages
`1 .. min cap T` and returns their concatenated valid-date entries; and
every entry `fetchMoviesForCombination` ever returns has a present,
parseable release date. -/
theorem fetchCombination_pages (api : Nat → Option PageResult)
    (R : Nat → List Movie) (T cap : Nat) :
    (1 ≤ cap → 1 ≤ T →
      (∀ p, 1 ≤ p → p ≤ min cap T → api p = some ⟨R p, T⟩) →
      fetchMoviesForCombination api cap =
        ((List.range' 1 (min cap T)).map
          (fun p => (R p).filter isValidEntry)).flatten) ∧
    (∀ m ∈ fetchMoviesForCombination api cap, isValidEntry m = true) := by
  constructor
  · intro hcap hT hapi
    have h := fetchLoop_run api R T cap hapi (min cap T - 1) 1 []
      (by omega) (by omega)
    rw [show min cap T - 1 + 1 = min cap T by omega] at h
    simp [fetchMoviesForCombination, h]
  · intro m hm
    rcases hfl : fetchLoop api cap 1 [] with _ | l
    · simp [fetchMoviesForCombination, hfl] at hm
    · simp only [fetchMoviesForCombination, hfl] at hm
      exact fetchLoop_valid api cap 1 [] (by intro x hx; simp at hx) l hfl m hm

theorem fetchCombination_pages_witness :
    fetchMoviesForCombination steadyApi 2 =
      ((List.range' 1 (min 2 3)).map
        (fun p => (pagedList p).filter isValidEntry)).flatten ∧
    isValidEntry (pageMovie 1) = true := by
  have hmain := (fetchCombination_pages steadyApi pagedList 3 2).1
    (by decide) (by decide) (fun p _ _ => rfl)
  refine ⟨hmain, ?_⟩
  refine (fetchCombination_pages steadyApi pagedList 3 2).2 (pageMovie 1) ?_
  rw [hmain]
  decide

/-- C5: after every refresh, the catalog entry list is the concatenated
per-combination results sorted by release date descending; the sort is a
permutation of the fetched list, and it is stable — two entries with equal
release dates keep the relative order they had in the concatenated fetch
results. -/
theorem fetchMovies_sorted :
    (∀ (api : String → Nat → Option PageResult) (cap : Nat),
      List.Pairwise (fun a b => dateKey b ≤ dateKey a) (fetchMovies api cap)) ∧
    (∀ (api : String → Nat → Option PageResult) (cap : Nat),
      (fetchMovies api cap).Perm (concatCombinations api cap)) ∧
    (∀ (api : String → Nat → Option PageResult) (cap : Nat) (a b : Movie),
      dateKey a = dateKey b →
      [a, b].Sublist (concatCombinations api cap) →
      [a, b].Sublist (fetchMovies api cap)) := by
  refine ⟨?_, ?_, ?_⟩
  · intro api cap
    rw [fetchMovies_eq]
    refine (List.sorted_mergeSort dateDescLE_trans dateDescLE_total
      (concatCombinations api cap)).imp ?_
    intro a b h
    simpa [dateDescLE] using h
  · intro api cap
    rw [fetchMovies_eq]
    exact List.mergeSort_perm _ _
  · intro api cap a b hdate hsub
    rw [fetchMovies_eq]
    refine List.sublist_mergeSort dateDescLE_trans dateDescLE_total ?_ hsub
    simp [List.pairwise_cons, dateDescLE, hdate]

theorem fetchMovies_sorted_witness :
    dateKey movieMad = dateKey movieIron ∧
    [movieMad, movieIron].Sublist (fetchMovies stableApi 5) := by
  refine ⟨by decide, ?_⟩
  refine (fetchMovies_sorted).2.2 stableApi 5 movieMad movieIron (by decide) ?_
  have h : concatCombinations stableApi 5 = [movieMad, movieIron] := by
    simp [concatCombinations, GENRE_COMBINATIONS, fetchMoviesForCombination,
      fetchLoop.eq_def, stableApi]
    decide
  rw [h]

/-- C10: the catalog search is total only when every cached entry has a
title: with a non-empty query the filter calls `toLowerCase` on each
entry's title without a guard, so a state containing a title-less entry
makes the handler throw, while the same state is served without error
when the query is empty or absent. -/
theorem searchCatalog_title_guard (c : CatalogCache) (q : String)
    (hq : q ≠ "") (hm : ∃ m ∈ c.data, m.title = none) :
    catalogHandler (some c) (some q) = .error () ∧
    catalogHandler (some c) none = .ok (c.data.map buildCatalogMeta) := by
  constructor
  · simp only [catalogHandler]
    rw [if_pos hq, filterByTitle_error c.data q hm]
    rfl
  · rfl

theorem searchCatalog_title_guard_witness :
    catalogHandler (some ⟨5, [movieNoTitle, movieIron]⟩) (some "a") = .error () ∧
    catalogHandler (some ⟨5, [movieNoTitle, movieIron]⟩) none =
      .ok ([movieNoTitle, movieIron].map buildCatalogMeta) :=
  searchCatalog_title_guard ⟨5, [movieNoTitle, movieIron]⟩ "a" (by decide)
    ⟨movieNoTitle, by decide, rfl⟩

theorem refresh_atomicity_cex :
    midState ∈ refreshStates preState [movieIron] metaOracle 10 ∧
    midState ≠ preState ∧
    midState ≠ refreshPost preState [movieIron] metaOracle 10 := by
  refine ⟨by decide, by decide, by decide⟩

/-- C1 (amended): the catalog-snapshot swap is a single synchronous
assignment, but the metadata table is merged record by record across the
run's suspension points.  Every state a reader can observe is either the
pre-refresh state or has the new catalog snapshot already in place with a
metadata table in which each id is bound either to its pre-refresh record
or to the freshly fetched one; the last observable state is the fully
merged post-refresh pair. -/
theorem refresh_observable_states (pre : CacheState) (results : List Movie)
    (metaOf : Nat → MovieData) (now : Nat) :
    ((refreshStates pre results metaOf now).getLast? =
      some (refreshPost pre results metaOf now)) ∧
    (∀ s ∈ refreshStates pre results metaOf now, ∀ id,
      s = pre ∨
      (s.catalog = some ⟨now, results⟩ ∧
        (lookupMeta s.meta id = lookupMeta pre.meta id ∨
         lookupMeta s.meta id = some ⟨now, metaOf id⟩))) := by
  constructor
  · simp only [refreshStates, refreshPost, List.range_succ, List.map_append,
      List.map_cons, List.map_nil, ← List.cons_append, List.getLast?_concat,
      List.take_length]
  · intro s hs id
    rcases List.mem_cons.mp hs with rfl | hs2
    · exact Or.inl rfl
    · right
      rcases List.mem_map.mp hs2 with ⟨i, _, rfl⟩
      exact ⟨rfl, mergeMetaRun_lookup_or metaOf now (results.take i) pre.meta id⟩

theorem refresh_observable_states_witness :
    midState ∈ refreshStates preState [movieIron] metaOracle 10 ∧
    (midState = preState ∨
      (midState.catalog = some ⟨10, [movieIron]⟩ ∧
        (lookupMeta midState.meta 2 = lookupMeta preState.meta 2 ∨
         lookupMeta midState.meta 2 = some ⟨10, metaOracle 2⟩))) :=
  ⟨by decide,
   (refresh_observable_states preState [movieIron] metaOracle 10).2
     midState (by decide) 2⟩

theorem fetchCombination_partial_cex :
    failingPageApi 1 = some ⟨[movieIron], 3⟩ ∧
    isValidEntry movieIron = true ∧
    fetchMoviesForCombination failingPageApi 5 = [] := by
  refine ⟨rfl, by decide, ?_⟩
  simp [fetchMoviesForCombination, fetchLoop.eq_def, failingPageApi]

/-- C2 (amended): a page-level failure makes `fetchMoviesForCombination`
return the empty list for that combination, discarding the entries
gathered from its prior successful pages; the failure is confined to that
combination — the refresh's combined list is still a permutation of the
per-combination results, so the other combinations' entries are kept. -/
theorem fetchCombination_error_behavior :
    (∀ (api : Nat → Option PageResult) (cap : Nat),
      fetchLoop api cap 1 [] = none →
      fetchMoviesForCombination api cap = []) ∧
    (∀ (api : String → Nat → Option PageResult) (cap : Nat),
      (fetchMovies api cap).Perm (concatCombinations api cap)) := by
  constructor
  · intro api cap h
    simp [fetchMoviesForCombination, h]
  · intro api cap
    rw [fetchMovies_eq]
    exact List.mergeSort_perm _ _

theorem fetchCombination_error_behavior_witness :
    fetchLoop failingPageApi 5 1 [] = none ∧
    fetchMoviesForCombination failingPageApi 5 = [] := by
  have h : fetchLoop failingPageApi 5 1 [] = none := by
    simp [fetchLoop.eq_def, failingPageApi]
  exact ⟨h, fetchCombination_error_behavior.1 failingPageApi 5 h⟩

theorem scheduler_mutex_cex :
    inFlightAfter [SchedEvent.trigger, SchedEvent.trigger] = 2 ∧
    ¬ (∀ evs : List SchedEvent, inFlightAfter evs ≤ 1) := by
  refine ⟨rfl, fun h => ?_⟩
  have h2 := h [SchedEvent.trigger, SchedEvent.trigger]
  rw [show inFlightAfter [SchedEvent.trigger, SchedEvent.trigger] = 2 from rfl] at h2
  omega

/-- C3 (amended): the scheduler has no mutual-exclusion guard — a trigger
firing while runs are in flight immediately starts one more run rather
than being skipped or queued, and `n` triggers with no intervening
completion leave `n` runs in flight concurrently. -/
theorem scheduler_unguarded :
    (∀ evs : List SchedEvent,
      inFlightAfter (evs ++ [SchedEvent.trigger]) = inFlightAfter evs + 1) ∧
    (∀ n : Nat, inFlightAfter (List.replicate n SchedEvent.trigger) = n) := by
  constructor
  · intro evs
    rw [inFlightAfter_concat]
    rfl
  · intro n
    have h := foldl_schedStep_replicate n 0
    simpa [inFlightAfter] using h

theorem searchCatalog_missing_title_cex :
    catalogHandler (some ⟨5, [movieNoTitle]⟩) (some "man") = .error () := by
  rfl

/-- C4 (amended): an empty or absent query returns every cached entry
mapped to its summary view; a non-empty query returns exactly the
case-insensitive title matches mapped to summary views provided every
cached entry has a title (a title-less entry makes the filter throw
instead); an empty cache yields the empty list, never an error. -/
theorem searchCatalog_spec :
    (∀ (c : CatalogCache) (s : Option String), (s = none ∨ s = some "") →
      catalogHandler (some c) s = .ok (c.data.map buildCatalogMeta)) ∧
    (∀ (c : CatalogCache) (q : String), q ≠ "" →
      (∀ m ∈ c.data, (m.title).isSome = true) →
      catalogHandler (some c) (some q) =
        .ok ((c.data.filter (titleMatches q)).map buildCatalogMeta)) ∧
    (∀ s : Option String, catalogHandler none s = .ok []) := by
  refine ⟨?_, ?_, ?_⟩
  · rintro c s (rfl | rfl) <;> rfl
  · intro c q hq ht
    simp only [catalogHandler]
    rw [if_pos hq, filterByTitle_ok c.data q ht]
    rfl
  · intro s
    cases s with
    | none => rfl
    | some v =>
      by_cases hv : v = ""
      · subst hv
        rfl
      · simp only [catalogHandler]
        rw [if_pos hv]
        rfl

theorem searchCatalog_spec_witness :
    catalogHandler (some ⟨5, [movieMad, movieIron]⟩) (some "man") =
      .ok (([movieMad, movieIron].filter (titleMatches "man")).map
        buildCatalogMeta) :=
  searchCatalog_spec.2.1 ⟨5, [movieMad, movieIron]⟩ "man" (by decide) (by decide)
